import Mathlib

/-!
Verification of the soundfont_manager core: the note-range prober
(`test_note_range` in soundfont_utils.py), the silence detector
(`is_silent_wav` in sound_test.py), the timbre classifier
(`analyze_timbre` in soundfont_utils.py) and the quality heuristic
(`suggest_quality` in soundfont_utils.py), as a shallow embedding.

External effects (the FluidSynth subprocess, the filesystem, librosa) are
modelled as oracles/environments supplied to the embedded functions; the
control flow, comparisons and data handling are translated line by line
from the Python source.
-/

namespace SoundfontManager

/-! ### Silence detector (sound_test.py, is_silent_wav)

The waveform loaded by `librosa.load` is modelled as `Option (List ℚ)`:
`none` models a load failure (librosa raising, caught by the `except`
branch which returns `True`), `some y` the mono-mixed sample list.

`np.mean` of an empty array is NaN (a RuntimeWarning, not an exception),
and any IEEE comparison with NaN is false, so the empty waveform is
modelled by `meanSq` returning `none`, and the comparison against the
threshold returns `false` in that case.

The source computes `rms = np.sqrt(np.mean(y**2))` and returns
`rms < threshold`.  For the nonnegative mean-square `m` and the positive
thresholds the program uses, `sqrt m < t` holds iff `m < t^2`; the
embedding stores the mean square and compares against `threshold^2`,
which keeps the function executable over `ℚ` (no irrational `sqrt`).
The equivalence with the real-number RMS comparison is proved in the
claim theorems via `Real.sqrt`.
-/

/-- `np.mean(y**2)` for the loaded waveform: `none` models the NaN that
numpy produces on an empty array. -/
def meanSq (y : List ℚ) : Option ℚ :=
  if y.length = 0 then none
  else some ((y.map (fun v => v ^ 2)).sum / (y.length : ℚ))

/-- Embeds `is_silent_wav` (sound_test.py lines 291-305).
`w = none` models a failure to load the WAV (exception caught, returns
`True`); an empty waveform yields a NaN RMS, and `NaN < threshold` is
false in IEEE arithmetic. -/
def is_silent_wav (w : Option (List ℚ)) (threshold : ℚ) : Bool :=
  match w with
  | none => true
  | some y =>
    match meanSq y with
    | none => false
    | some m => decide (m < threshold ^ 2)

/-! ### Quality heuristic (soundfont_utils.py, suggest_quality) -/

/-- The value stored under the `"mapped_notes"` key of the metadata dict:
either a dict (whose `"missing_notes"` entry, when present, is a list of
note names) or some non-dict value (`isinstance(mapped_notes, dict)`
fails). -/
inductive MappedNotesVal where
  | dict (missing_notes : Option (List String))
  | nonDict
  deriving DecidableEq

/-- The metadata dict as read by `suggest_quality`: each field models
`metadata.get(key, default)`, with `none` when the key is absent. -/
structure QualityMeta where
  size_mb : Option ℚ
  sample_rate : Option ℚ
  bit_depth : Option ℚ
  mapped_notes : Option MappedNotesVal
  deriving DecidableEq

/-- Size factor (soundfont_utils.py lines 1007-1014). -/
def sizeFactor (size_mb : Option ℚ) : ℚ :=
  let s := size_mb.getD 0
  if s > 30 then 2 else if s > 10 then 1 else 0

/-- Sample-rate factor (lines 1016-1023). -/
def sampleRateFactor (sample_rate : Option ℚ) : ℚ :=
  let s := sample_rate.getD 0
  if s ≥ 44100 then 2 else if s ≥ 22050 then 1 else 0

/-- Bit-depth factor (lines 1025-1032). -/
def bitDepthFactor (bit_depth : Option ℚ) : ℚ :=
  let b := bit_depth.getD 0
  if b ≥ 24 then 2 else if b ≥ 16 then 1 else 0

/-- Note-coverage factor (lines 1034-1043): `metadata.get("mapped_notes", {})`
yields an empty dict when the key is absent, so an absent key or a dict
without `"missing_notes"` counts zero missing notes; a non-dict value
fails the `isinstance` check and leaves the factor at 0. -/
def coverageFactor (mapped_notes : Option MappedNotesVal) : ℚ :=
  match mapped_notes.getD (MappedNotesVal.dict none) with
  | MappedNotesVal.dict mn =>
    let missing := mn.getD []
    if missing.length < 5 then 2 else if missing.length < 20 then 1 else 0
  | MappedNotesVal.nonDict => 0

/-- `sum(factors.values())` (line 1046). -/
def totalScore (m : QualityMeta) : ℚ :=
  sizeFactor m.size_mb + sampleRateFactor m.sample_rate
    + bitDepthFactor m.bit_depth + coverageFactor m.mapped_notes

/-- Embeds `suggest_quality` (soundfont_utils.py lines 989-1056).
The float thresholds 0.7 and 0.4 are modelled as the rationals 7/10 and
2/5: the only values `percentage` can take are k/8 for k = 0..8, all
exactly representable in binary floating point, and no k/8 lies between
either float threshold and its rational value, so the comparison is
exact. -/
def suggest_quality (m : QualityMeta) : String :=
  let total_score := totalScore m
  let max_score : ℚ := 8
  let percentage := total_score / max_score
  if percentage ≥ 7 / 10 then "high"
  else if percentage ≥ 2 / 5 then "medium"
  else "low"

/-- Modelled from the spec (section 4.4): the scoring rule in the spec's
own words, taking the four inputs directly; used only to compare against
the embedded `suggest_quality`. -/
def suggest_quality_spec (size_mb sample_rate bit_depth : ℚ)
    (missing_count : Nat) : String :=
  let score : ℚ :=
    (if size_mb > 30 then 2 else if size_mb > 10 then 1 else 0)
    + (if sample_rate ≥ 44100 then 2 else if sample_rate ≥ 22050 then 1 else 0)
    + (if bit_depth ≥ 24 then 2 else if bit_depth ≥ 16 then 1 else 0)
    + (if missing_count < 5 then 2 else if missing_count < 20 then 1 else 0)
  if score / 8 ≥ 7 / 10 then "high"
  else if score / 8 ≥ 2 / 5 then "medium"
  else "low"

/-! ### Timbre classifier (soundfont_utils.py, analyze_timbre) -/

/-- The timbre dictionary returned by `analyze_timbre`. -/
structure TimbreProfile where
  brightness : String
  richness : String
  attack : String
  harmonic_quality : String
  spectral_centroid : ℚ
  spectral_bandwidth : ℚ
  spectral_rolloff : ℚ
  zero_crossing_rate : ℚ
  mfcc_features : List ℚ
  deriving DecidableEq

/-- `default_timbre` (soundfont_utils.py lines 709-719). -/
def default_timbre : TimbreProfile :=
  { brightness := "medium"
    richness := "medium"
    attack := "medium"
    harmonic_quality := "balanced"
    spectral_centroid := 0
    spectral_bandwidth := 0
    spectral_rolloff := 0
    zero_crossing_rate := 0
    mfcc_features := List.replicate 13 0 }

/-- Embeds `map_value_to_category` (soundfont_utils.py lines 805-820):
first category whose threshold exceeds the value, else the last. -/
def map_value_to_category (value : ℚ) (thresholds : List ℚ)
    (categories : List String) : String :=
  match thresholds.findIdx? (fun t => decide (value < t)) with
  | some i => categories.getD i ""
  | none => (categories.getLast?).getD ""

/-- Environment for one `analyze_timbre` call: the outcome of the
`test_soundfont` render, the waveform `librosa.load` produces from it
(`none` = load raises), and the spectral measurements librosa computes
on a nonempty waveform (external library outputs, supplied as inputs). -/
structure TimbreEnv where
  renderOk : Bool
  waveform : Option (List ℚ)
  centroid : ℚ
  bandwidth : ℚ
  rolloff : ℚ
  zcr : ℚ
  harmonicRatio : ℚ
  mfccMeans : List ℚ
  deriving DecidableEq

/-- Embeds `analyze_timbre` (soundfont_utils.py lines 697-802): default
profile when the render fails, the waveform cannot be loaded, or the
waveform is empty or all-zero; otherwise threshold-bucketed categories
over the measured features. -/
def analyze_timbre (env : TimbreEnv) : TimbreProfile :=
  if env.renderOk = false then default_timbre
  else
    match env.waveform with
    | none => default_timbre
    | some y =>
      if y.length = 0 ∨ y.all (fun v => v == 0) then default_timbre
      else
        { brightness := map_value_to_category env.centroid [500, 1500, 3000]
            ["dark", "medium", "bright", "very bright"]
          richness := map_value_to_category env.bandwidth [500, 1500, 3000]
            ["simple", "medium", "rich", "very rich"]
          attack := map_value_to_category (env.zcr * 10000) [50, 150, 300]
            ["soft", "medium", "hard", "aggressive"]
          harmonic_quality := map_value_to_category env.harmonicRatio [1/2, 2, 5]
            ["percussive", "balanced", "harmonic", "very harmonic"]
          spectral_centroid := env.centroid
          spectral_bandwidth := env.bandwidth
          spectral_rolloff := env.rolloff
          zero_crossing_rate := env.zcr
          mfcc_features := env.mfccMeans }

/-! ### Renderer boundary (sound_test.py test_soundfont, fluidsynth_helper.py
run_fluidsynth)

`test_soundfont` shells out to FluidSynth; its environment records which
of its checks succeed.  `fsProbe = none` models `subprocess.run(['fluidsynth',
'--version'])` raising (binary cannot be invoked at all); `some rc` its
return code.  `driverRenders` lists, per working audio driver tried, whether
that render attempt produced a nonempty output file with return code 0. -/
structure SysEnv where
  sfExists : Bool
  fsProbe : Option Int
  midiCreateOk : Bool
  driverRenders : List Bool
  deriving DecidableEq

/-- Embeds `test_soundfont` (sound_test.py lines 102-243).  Every failure
path, the renderer-unavailable one included, returns `(false, none)`;
the function never raises to its caller. -/
def test_soundfont (env : SysEnv) : Bool × Option Unit :=
  if env.sfExists = false then (false, none)
  else
    match env.fsProbe with
    | none => (false, none)
    | some rc =>
      if rc ≠ 0 then (false, none)
      else if env.midiCreateOk = false then (false, none)
      else if env.driverRenders.any (fun b => b) then (true, some ())
      else (false, none)

/-- Embeds `run_fluidsynth` in rendering mode (fluidsynth_helper.py lines
375-393): with an output WAV path it returns the success flag of
`test_soundfont`. -/
def run_fluidsynth_render (env : SysEnv) : Bool :=
  (test_soundfont env).1

/-! ### Note names (soundfont_utils.py, MIDI_TO_NOTE) -/

/-- `NOTE_NAMES` (soundfont_utils.py line 17): the twelve pitch-class
names in sharp spelling, C first. -/
def NOTE_NAMES : List String :=
  ["C", "C#", "D", "D#", "E", "F"] ++ ["F#", "G", "G#", "A", "A#", "B"]

/-- `MIDI_TO_NOTE.get(n, f"Unknown-{n}")` (lines 21-26): for 0 ≤ n ≤ 127
the name is `NOTE_NAMES[n % 12]` followed by the octave `n / 12 - 1`. -/
def midiToNote (n : Nat) : String :=
  if n ≤ 127 then NOTE_NAMES.getD (n % 12) "" ++ toString ((n : Int) / 12 - 1)
  else "Unknown-" ++ toString n

/-! ### Note-range prober (soundfont_utils.py, test_note_range)

Each call `run_fluidsynth(...)` plus the subsequent file checks and
`is_silent_wav` call is one interaction with the outside world; the
oracle maps the index of the call (in program order) to what that
interaction observed: the render success flag, the size of the output
WAV if it exists, and the waveform `is_silent_wav` loads from it. -/

/-- What one per-note render attempt observes: `run_fluidsynth` success,
`os.path.getsize(wav_path)` when the file exists (`none` otherwise), and
the waveform `librosa.load` reads from the file (`none` = load raises). -/
structure RenderResult where
  success : Bool
  wavSize : Option Nat
  wav : Option (List ℚ)
  deriving DecidableEq

/-- The sequence of per-note render outcomes, indexed by call order. -/
abbrev Oracle : Type := Nat → RenderResult

/-- The per-note playability classification (soundfont_utils.py line 1118
and 1120): render succeeded AND the file exists with size > 100 AND the
waveform is not silent. -/
def playableResult (r : RenderResult) : Bool :=
  r.success
    && (match r.wavSize with
        | some n => decide (100 < n)
        | none => false)
    && !(is_silent_wav r.wav (1 / 100))

/-- The `playable_notes` dict, as an insertion-ordered association list. -/
abbrev Dict : Type := List (Nat × Bool)

/-- `playable_notes[k] = v`. -/
def dictSet : Dict → Nat → Bool → Dict
  | [], k, v => [(k, v)]
  | (k2, v2) :: rest, k, v =>
    if k2 = k then (k, v) :: rest else (k2, v2) :: dictSet rest k v

/-- `playable_notes.get(k, dflt)`. -/
def dictGet : Dict → Nat → Bool → Bool
  | [], _, dflt => dflt
  | (k2, v2) :: rest, k, dflt => if k2 = k then v2 else dictGet rest k dflt

/-- `[note for note, is_playable in playable_notes.items() if is_playable]`
(lines 1173 and 1214). -/
def playableOf (d : Dict) : List Nat :=
  (d.filter (fun e => e.2)).map (fun e => e.1)

/-- Probe state: the oracle, the number of render calls made so far, the
`playable_notes` dict, and an instrumentation trace of
(note, observed render result, classification) triples. -/
structure ProbeState where
  oracle : Oracle
  calls : Nat
  dict : Dict
  trace : List (Nat × RenderResult × Bool)

/-- One iteration of the phase-1/2 loops (lines 1106-1128): test the note
and record the classification in the dict, `True` or `False`. -/
def testStep (s : ProbeState) (note : Nat) : ProbeState :=
  let r := s.oracle s.calls
  let b := playableResult r
  { s with
    calls := s.calls + 1
    dict := dictSet s.dict note b
    trace := s.trace ++ [(note, r, b)] }

/-- The phase-1/2 `for note in ...` loops. -/
def testLoop (s : ProbeState) : List Nat → ProbeState
  | [] => s
  | n :: rest => testLoop (testStep s n) rest

/-- `test_notes` (lines 1083-1094). -/
def seedNotes : List Nat := [24, 36, 48, 60, 72, 84, 96]

/-- The low-extension notes tested when C1 (MIDI 24) is playable
(line 1132). -/
def lowExtNotes : List Nat := [12, 16, 19, 21]

/-- The high-extension notes tested when C7 (MIDI 96) is playable
(line 1153). -/
def highExtNotes : List Nat := [100, 103, 108]

/-- Phase 1 (lines 1106-1128): the seed sweep over `test_notes`. -/
def phase1 (oracle : Oracle) : ProbeState :=
  testLoop { oracle := oracle, calls := 0, dict := [], trace := [] } seedNotes

/-- Phase 2, low side (lines 1131-1149): `if playable_notes.get(24, False)`,
test the low-extension notes. -/
def phase2low (s : ProbeState) : ProbeState :=
  if dictGet s.dict 24 false then testLoop s lowExtNotes else s

/-- Phase 2, high side (lines 1152-1170): `if playable_notes.get(96, False)`,
test the high-extension notes. -/
def phase2high (s : ProbeState) : ProbeState :=
  if dictGet s.dict 96 false then testLoop s highExtNotes else s

/-- Phases 1 and 2 (lines 1106-1170). -/
def phase12 (oracle : Oracle) : ProbeState :=
  phase2high (phase2low (phase1 oracle))

/-- Python `range(start, stop, step)` for positive `step`. -/
def pyRange (start stop step : Nat) : List Nat :=
  (List.range ((stop - start + step - 1) / step)).map (fun i => start + i * step)

/-- Python `min` over a nonempty list (junk 0 on the empty list, which
the prober never reaches). -/
def minList : List Nat → Nat
  | [] => 0
  | [h] => h
  | h :: t => min h (minList t)

/-- Python `max` over a nonempty list. -/
def maxList : List Nat → Nat
  | [] => 0
  | [h] => h
  | h :: t => max h (maxList t)

/-- Python `sorted` on a list of naturals: insertion sort. -/
def insertSorted (x : Nat) : List Nat → List Nat
  | [] => [x]
  | y :: t => if x ≤ y then x :: y :: t else y :: insertSorted x t

/-- `sorted(missing_notes)` (line 1224). -/
def sortNat (l : List Nat) : List Nat := l.foldr insertSorted []

/-- One iteration of the gap-sampling loop (lines 1194-1211): a success
marks the note playable in the dict; a failure appends the note to
`missing_notes` and leaves the dict untouched. -/
def gapStep (s : ProbeState) (note : Nat) (missing : List Nat) :
    ProbeState × List Nat :=
  let r := s.oracle s.calls
  let b := playableResult r
  ({ s with
      calls := s.calls + 1
      dict := if b then dictSet s.dict note true else s.dict
      trace := s.trace ++ [(note, r, b)] },
   if b then missing else missing ++ [note])

/-- The gap-sampling `for note in test_within_range` loop. -/
def gapLoop (s : ProbeState) (notes : List Nat) (missing : List Nat) :
    ProbeState × List Nat :=
  match notes with
  | [] => (s, missing)
  | n :: rest =>
    let p := gapStep s n missing
    gapLoop p.1 rest p.2

/-- Everything one probe run produces: the returned triple plus
instrumentation of the intermediate quantities the source computes
(tentative span, stride, sampling grid, final span, missing list,
final playable set, the phase traces).  `tempDirRemoved` records whether
the `shutil.rmtree(temp_dir)` statement at the end of `test_note_range`
(lines 1236-1239) executed during the run. -/
structure RunResult where
  result : String × String × List String
  anyPlayable : Bool
  tentPlayable : List Nat
  tentMin : Option Nat
  tentMax : Option Nat
  stride : Option Nat
  grid : List Nat
  minMidi : Option Nat
  maxMidi : Option Nat
  missingMidi : List Nat
  finalPlayable : List Nat
  trace12 : List (Nat × RenderResult × Bool)
  traceGap : List (Nat × RenderResult × Bool)
  tempDirRemoved : Bool

/-- The `if playable_midi_notes:` branch of `test_note_range`
(lines 1175-1231): compute the tentative span, build the stride grid of
notes not already confirmed playable, test them, recompute the span over
the updated dict and return names.  Both this branch and the fallback
end in `return`, so the cleanup block after them (lines 1236-1239) never
runs: `tempDirRemoved` is `false` on every path. -/
def probeMain (s12 : ProbeState) (pl : List Nat) : RunResult :=
  let min0 := minList pl
  let max0 := maxList pl
  let step := if max0 - min0 > 24 then 3 else 1
  let grid := (pyRange min0 (max0 + 1) step).filter (fun n => decide (n ∉ pl))
  let p := gapLoop { s12 with trace := [] } grid []
  let plF := playableOf p.1.dict
  let min1 := minList plF
  let max1 := maxList plF
  { result := (midiToNote min1, midiToNote max1,
      (sortNat p.2).map (fun n => midiToNote n))
    anyPlayable := true
    tentPlayable := pl
    tentMin := some min0
    tentMax := some max0
    stride := some step
    grid := grid
    minMidi := some min1
    maxMidi := some max1
    missingMidi := p.2
    finalPlayable := plF
    trace12 := s12.trace
    traceGap := p.1.trace
    tempDirRemoved := false }

/-- Embeds `test_note_range` (soundfont_utils.py lines 1058-1239) for a
run with no caller-supplied output directory, with full instrumentation.
The `else` branch (lines 1232-1234) is the degenerate fallback. -/
def probeRun (oracle : Oracle) : RunResult :=
  let s12 := phase12 oracle
  let pl := playableOf s12.dict
  if pl = [] then
    { result := ("C4", "C4", [])
      anyPlayable := false
      tentPlayable := []
      tentMin := none
      tentMax := none
      stride := none
      grid := []
      minMidi := none
      maxMidi := none
      missingMidi := []
      finalPlayable := []
      trace12 := s12.trace
      traceGap := []
      tempDirRemoved := false }
  else probeMain s12 pl

/-- The value `test_note_range` actually returns:
`(min_note, max_note, missing_note_names)`. -/
def test_note_range (oracle : Oracle) : String × String × List String :=
  (probeRun oracle).result

/-! ### Concrete environments used to exercise the theorems -/

/-- Every render attempt succeeds with a large output file whose waveform
is classified non-silent (an empty waveform: its NaN RMS compares false
against the threshold). -/
def allPlayOracle : Oracle := fun _ => ⟨true, some 200, some []⟩

/-- Every render attempt fails outright. -/
def allFailOracle : Oracle := fun _ => ⟨false, none, none⟩

/-- Every render succeeds, except calls 1 (note 36 of the seed sweep) and
19 (its retest in the gap phase), whose waveform cannot be loaded and is
therefore treated as silent. -/
def gapOracle : Oracle := fun k =>
  if k = 1 ∨ k = 19 then ⟨true, some 200, none⟩
  else ⟨true, some 200, some []⟩

/-- A system environment in which the FluidSynth binary cannot be invoked
at all (the `subprocess.run(['fluidsynth', '--version'])` probe raises). -/
def envUnavailable : SysEnv := ⟨true, none, true, [true]⟩

/-- A system environment in which FluidSynth runs but the render of the
test MIDI fails on every audio driver. -/
def envRenderFail : SysEnv := ⟨true, some 0, true, [false]⟩

/-- The oracle `test_note_range` sees when every `run_fluidsynth` call is
routed through `test_soundfont` in environment `env` and no output file
gets written. -/
def oracleOfEnv (env : SysEnv) : Oracle :=
  fun _ => ⟨run_fluidsynth_render env, none, none⟩

/-! ### Helper lemmas: the dict -/

/-- Distinct keys in the dict (holds for every dict built by the probe,
which starts empty and only uses `dictSet`). -/
def KeysNodup (d : Dict) : Prop := (d.map (fun e => e.1)).Nodup

theorem dictGet_dictSet_self (d : Dict) (k : Nat) (v : Bool) (dflt : Bool) :
    dictGet (dictSet d k v) k dflt = v := by
  induction d with
  | nil => simp [dictSet, dictGet]
  | cons e rest ih =>
    by_cases h : e.1 = k
    · simp [dictSet, dictGet, h]
    · simp only [dictSet, dictGet, h, if_false]
      exact ih

theorem dictGet_dictSet_ne (d : Dict) (k j : Nat) (v : Bool) (dflt : Bool)
    (h : k ≠ j) : dictGet (dictSet d k v) j dflt = dictGet d j dflt := by
  induction d with
  | nil => simp [dictSet, dictGet, h]
  | cons e rest ih =>
    by_cases h2 : e.1 = k
    · simp [dictSet, dictGet, h2, h]
    · simp only [dictSet, dictGet, h2, if_false]
      by_cases h3 : e.1 = j <;> simp [h3, ih]

theorem mem_dictSet (d : Dict) (k : Nat) (v : Bool) (e : Nat × Bool) :
    e ∈ dictSet d k v → e ∈ d ∨ e = (k, v) := by
  induction d with
  | nil =>
    intro h
    simp only [dictSet, List.mem_singleton] at h
    exact Or.inr h
  | cons e2 rest ih =>
    intro h
    by_cases h2 : e2.1 = k
    · simp only [dictSet, h2, if_true, List.mem_cons] at h
      rcases h with h | h
      · exact Or.inr h
      · exact Or.inl (List.mem_cons_of_mem _ h)
    · simp only [dictSet, h2, if_false, List.mem_cons] at h
      rcases h with h | h
      · exact Or.inl (by simp [h])
      · rcases ih h with h3 | h3
        · exact Or.inl (List.mem_cons_of_mem _ h3)
        · exact Or.inr h3

theorem keysNodup_dictSet (d : Dict) (k : Nat) (v : Bool)
    (h : KeysNodup d) : KeysNodup (dictSet d k v) := by
  induction d with
  | nil => simp [dictSet, KeysNodup]
  | cons e rest ih =>
    unfold KeysNodup at h
    simp only [List.map_cons, List.nodup_cons] at h
    by_cases h2 : e.1 = k
    · unfold KeysNodup
      simp only [dictSet, h2, if_true, List.map_cons, List.nodup_cons]
      rw [← h2]
      exact h
    · unfold KeysNodup
      simp only [dictSet, h2, if_false, List.map_cons, List.nodup_cons]
      constructor
      · intro hc
        rcases List.mem_map.mp hc with ⟨e3, he3, he3k⟩
        rcases mem_dictSet rest k v e3 he3 with h4 | h4
        · exact h.1 (List.mem_map.mpr ⟨e3, h4, he3k⟩)
        · exact h2 (by rw [h4] at he3k; simpa using he3k.symm)
      · exact ih h.2

theorem mem_playableOf (d : Dict) (n : Nat) :
    n ∈ playableOf d ↔ (n, true) ∈ d := by
  unfold playableOf
  constructor
  · intro h
    rcases List.mem_map.mp h with ⟨e, he, hek⟩
    rcases List.mem_filter.mp he with ⟨hed, hev⟩
    have : e = (n, true) := by
      rcases e with ⟨a, b⟩
      simp at hev hek
      simp [hek, hev]
    rw [← this]; exact hed
  · intro h
    exact List.mem_map.mpr ⟨(n, true), List.mem_filter.mpr ⟨h, by simp⟩, rfl⟩

theorem dictGet_true_iff (d : Dict) (n : Nat) (hnd : KeysNodup d) :
    dictGet d n false = true ↔ (n, true) ∈ d := by
  induction d with
  | nil => simp [dictGet]
  | cons e rest ih =>
    unfold KeysNodup at hnd
    simp only [List.map_cons, List.nodup_cons] at hnd
    by_cases h2 : e.1 = n
    · simp only [dictGet, h2, if_true, List.mem_cons]
      constructor
      · intro hv
        left
        rcases e with ⟨a, b⟩
        simp only at h2 hv
        simp [h2, hv]
      · intro h
        rcases h with h | h
        · rcases e with ⟨a, b⟩
          simp only [Prod.mk.injEq] at h
          exact h.2.symm
        · exact absurd (List.mem_map.mpr ⟨(n, true), h, by simp [h2]⟩) hnd.1
    · simp only [dictGet, h2, if_false, List.mem_cons]
      rw [ih hnd.2]
      constructor
      · intro h; right; exact h
      · intro h
        rcases h with h | h
        · rcases e with ⟨a, b⟩
          simp only [Prod.mk.injEq] at h
          exact absurd h.1.symm h2
        · exact h

/-- `n ∈ playableOf d ↔ dictGet d n false = true`, for well-formed dicts. -/
theorem mem_playableOf_dictGet (d : Dict) (n : Nat) (hnd : KeysNodup d) :
    n ∈ playableOf d ↔ dictGet d n false = true := by
  rw [mem_playableOf, dictGet_true_iff d n hnd]

/-! ### Helper lemmas: min, max, range, sort -/

theorem minList_cons_cons (h a : Nat) (t : List Nat) :
    minList (h :: a :: t) = min h (minList (a :: t)) := rfl

theorem maxList_cons_cons (h a : Nat) (t : List Nat) :
    maxList (h :: a :: t) = max h (maxList (a :: t)) := rfl

theorem minList_le (l : List Nat) (x : Nat) : x ∈ l → minList l ≤ x := by
  induction l with
  | nil => intro h; cases h
  | cons h t ih =>
    intro hx
    cases t with
    | nil =>
      rw [List.mem_singleton] at hx
      rw [hx]
      exact le_refl _
    | cons a b =>
      rw [minList_cons_cons]
      rcases List.mem_cons.mp hx with hx | hx
      · rw [hx]; exact min_le_left _ _
      · exact le_trans (min_le_right _ _) (ih hx)

theorem minList_mem (l : List Nat) : l ≠ [] → minList l ∈ l := by
  induction l with
  | nil => intro h; exact absurd rfl h
  | cons h t ih =>
    intro _
    cases t with
    | nil => simp [minList]
    | cons a b =>
      rw [minList_cons_cons]
      rcases min_cases h (minList (a :: b)) with ⟨he, _⟩ | ⟨he, _⟩
      · rw [he]; exact List.mem_cons_self _ _
      · rw [he]; exact List.mem_cons_of_mem _ (ih (by simp))

theorem le_maxList (l : List Nat) (x : Nat) : x ∈ l → x ≤ maxList l := by
  induction l with
  | nil => intro h; cases h
  | cons h t ih =>
    intro hx
    cases t with
    | nil =>
      rw [List.mem_singleton] at hx
      rw [hx]
      exact le_refl _
    | cons a b =>
      rw [maxList_cons_cons]
      rcases List.mem_cons.mp hx with hx | hx
      · rw [hx]; exact le_max_left _ _
      · exact le_trans (ih hx) (le_max_right _ _)

theorem maxList_mem (l : List Nat) : l ≠ [] → maxList l ∈ l := by
  induction l with
  | nil => intro h; exact absurd rfl h
  | cons h t ih =>
    intro _
    cases t with
    | nil => simp [maxList]
    | cons a b =>
      rw [maxList_cons_cons]
      rcases max_cases h (maxList (a :: b)) with ⟨he, _⟩ | ⟨he, _⟩
      · rw [he]; exact List.mem_cons_self _ _
      · rw [he]; exact List.mem_cons_of_mem _ (ih (by simp))

theorem minList_eq_of_mem_of_le (l : List Nat) (m : Nat) (hm : m ∈ l)
    (hle : ∀ x ∈ l, m ≤ x) : minList l = m :=
  le_antisymm (minList_le l m hm)
    (hle _ (minList_mem l (List.ne_nil_of_mem hm)))

theorem maxList_eq_of_mem_of_le (l : List Nat) (m : Nat) (hm : m ∈ l)
    (hle : ∀ x ∈ l, x ≤ m) : maxList l = m :=
  le_antisymm (hle _ (maxList_mem l (List.ne_nil_of_mem hm)))
    (le_maxList l m hm)

theorem mem_pyRange (a b step n : Nat) (hs : 1 ≤ step) :
    n ∈ pyRange a b step → a ≤ n ∧ n < b := by
  intro h
  rcases List.mem_map.mp h with ⟨i, hi, hin⟩
  rw [List.mem_range] at hi
  subst hin
  refine ⟨Nat.le_add_right _ _, ?_⟩
  have h1 : (i + 1) * step ≤ ((b - a + step - 1) / step) * step :=
    Nat.mul_le_mul_right _ hi
  have h2 : ((b - a + step - 1) / step) * step ≤ b - a + step - 1 :=
    Nat.div_mul_le_self _ _
  have h3 : (i + 1) * step ≤ b - a + step - 1 := le_trans h1 h2
  have h4 : i * step + step ≤ b - a + step - 1 := by
    rw [Nat.succ_mul] at h3; exact h3
  -- from h4: i * step < b - a, hence a + i * step < b
  omega

theorem pyRange_nodup (a b step : Nat) (hs : 1 ≤ step) :
    (pyRange a b step).Nodup := by
  unfold pyRange
  refine List.Nodup.map ?_ (List.nodup_range _)
  intro i j hij
  simp only at hij
  have h2 : i * step = j * step := Nat.add_left_cancel hij
  exact Nat.eq_of_mul_eq_mul_right hs h2

/-! ### Helper lemmas: the phase-1/2 loop -/

theorem testLoop_oracle (ns : List Nat) (s : ProbeState) :
    (testLoop s ns).oracle = s.oracle := by
  induction ns generalizing s with
  | nil => rfl
  | cons n rest ih => rw [testLoop, ih]; rfl

theorem testLoop_keysNodup (ns : List Nat) (s : ProbeState)
    (h : KeysNodup s.dict) : KeysNodup (testLoop s ns).dict := by
  induction ns generalizing s with
  | nil => exact h
  | cons n rest ih =>
    rw [testLoop]
    exact ih _ (keysNodup_dictSet _ _ _ h)

theorem testLoop_trace_mono (ns : List Nat) (s : ProbeState) (e : Nat × RenderResult × Bool)
    (h : e ∈ s.trace) : e ∈ (testLoop s ns).trace := by
  induction ns generalizing s with
  | nil => exact h
  | cons n rest ih =>
    rw [testLoop]
    exact ih _ (by simp [testStep, h])

theorem testLoop_dict_from_trace (ns : List Nat) (s : ProbeState) (e : Nat × Bool)
    (h : e ∈ (testLoop s ns).dict) :
    e ∈ s.dict ∨ ∃ r, (e.1, r, e.2) ∈ (testLoop s ns).trace := by
  induction ns generalizing s with
  | nil => exact Or.inl h
  | cons n rest ih =>
    rw [testLoop] at h ⊢
    rcases ih _ h with h2 | h2
    · rcases mem_dictSet _ _ _ _ h2 with h3 | h3
      · exact Or.inl h3
      · refine Or.inr ⟨s.oracle s.calls, ?_⟩
        rw [h3]
        exact testLoop_trace_mono _ _ _ (by simp [testStep])
    · exact Or.inr h2

/-! ### Helper lemmas: the gap-sampling loop -/

theorem gapLoop_oracle (ns : List Nat) (s : ProbeState) (missing : List Nat) :
    (gapLoop s ns missing).1.oracle = s.oracle := by
  induction ns generalizing s missing with
  | nil => rfl
  | cons n rest ih => rw [gapLoop, ih]; rfl

theorem gapLoop_keysNodup (ns : List Nat) (s : ProbeState) (missing : List Nat)
    (h : KeysNodup s.dict) : KeysNodup (gapLoop s ns missing).1.dict := by
  induction ns generalizing s missing with
  | nil => exact h
  | cons n rest ih =>
    rw [gapLoop]
    refine ih _ _ ?_
    simp only [gapStep]
    by_cases hb : playableResult (s.oracle s.calls) = true
    · simp only [hb, if_true]
      exact keysNodup_dictSet _ _ _ h
    · simp only [Bool.not_eq_true] at hb
      simp only [hb]
      exact h

theorem gapLoop_trace_notes (ns : List Nat) (s : ProbeState) (missing : List Nat) :
    (gapLoop s ns missing).1.trace.map (fun e => e.1)
      = s.trace.map (fun e => e.1) ++ ns := by
  induction ns generalizing s missing with
  | nil => simp [gapLoop]
  | cons n rest ih =>
    rw [gapLoop]
    rw [ih]
    simp [gapStep]

theorem gapLoop_missing_mono (ns : List Nat) (s : ProbeState) (missing : List Nat)
    (m : Nat) (h : m ∈ missing) : m ∈ (gapLoop s ns missing).2 := by
  induction ns generalizing s missing with
  | nil => exact h
  | cons n rest ih =>
    rw [gapLoop]
    refine ih _ _ ?_
    simp only [gapStep]
    by_cases hb : playableResult (s.oracle s.calls) = true
    · simp [hb, h]
    · simp only [Bool.not_eq_true] at hb
      simp [hb, h]

theorem gapLoop_missing_sub (ns : List Nat) (s : ProbeState) (missing : List Nat)
    (m : Nat) (h : m ∈ (gapLoop s ns missing).2) : m ∈ missing ∨ m ∈ ns := by
  induction ns generalizing s missing with
  | nil => exact Or.inl h
  | cons n rest ih =>
    rw [gapLoop] at h
    rcases ih _ _ h with h2 | h2
    · simp only [gapStep] at h2
      by_cases hb : playableResult (s.oracle s.calls) = true
      · simp only [hb, if_true] at h2
        exact Or.inl h2
      · simp only [Bool.not_eq_true] at hb
        simp only [hb, Bool.false_eq_true, if_false, List.mem_append,
          List.mem_singleton] at h2
        rcases h2 with h2 | h2
        · exact Or.inl h2
        · exact Or.inr (by simp [h2])
    · exact Or.inr (List.mem_cons_of_mem _ h2)

theorem gapLoop_fail_mem_missing (ns : List Nat) (s : ProbeState) (missing : List Nat)
    (e : Nat × RenderResult × Bool) (h : e ∈ (gapLoop s ns missing).1.trace) :
    e ∈ s.trace ∨ (e.2.2 = false → e.1 ∈ (gapLoop s ns missing).2) := by
  induction ns generalizing s missing with
  | nil => exact Or.inl h
  | cons n rest ih =>
    rw [gapLoop] at h ⊢
    rcases ih _ _ h with h2 | h2
    · simp only [gapStep, List.mem_append, List.mem_singleton] at h2
      rcases h2 with h2 | h2
      · exact Or.inl h2
      · subst h2
        refine Or.inr ?_
        intro hfail
        simp only at hfail
        refine gapLoop_missing_mono _ _ _ _ ?_
        simp only [gapStep, hfail, Bool.false_eq_true, if_false]
        simp
    · exact Or.inr h2

theorem gapLoop_dict_true_mono (ns : List Nat) (s : ProbeState) (missing : List Nat)
    (k : Nat) (h : dictGet s.dict k false = true) :
    dictGet (gapLoop s ns missing).1.dict k false = true := by
  induction ns generalizing s missing with
  | nil => exact h
  | cons n rest ih =>
    rw [gapLoop]
    refine ih _ _ ?_
    simp only [gapStep]
    by_cases hb : playableResult (s.oracle s.calls) = true
    · simp only [hb, if_true]
      by_cases hk : n = k
      · subst hk; rw [dictGet_dictSet_self]
      · rw [dictGet_dictSet_ne _ _ _ _ _ hk]; exact h
    · simp only [Bool.not_eq_true] at hb
      simp only [hb, Bool.false_eq_true, if_false]
      exact h

theorem gapLoop_dict_true_sub (ns : List Nat) (s : ProbeState) (missing : List Nat)
    (k : Nat) (h : dictGet (gapLoop s ns missing).1.dict k false = true) :
    dictGet s.dict k false = true ∨ k ∈ ns := by
  induction ns generalizing s missing with
  | nil => exact Or.inl h
  | cons n rest ih =>
    rw [gapLoop] at h
    rcases ih _ _ h with h2 | h2
    · simp only [gapStep] at h2
      by_cases hb : playableResult (s.oracle s.calls) = true
      · simp only [hb, if_true] at h2
        by_cases hk : n = k
        · exact Or.inr (by simp [hk])
        · rw [dictGet_dictSet_ne _ _ _ _ _ hk] at h2
          exact Or.inl h2
      · simp only [Bool.not_eq_true] at hb
        simp only [hb, Bool.false_eq_true, if_false] at h2
        exact Or.inl h2
    · exact Or.inr (List.mem_cons_of_mem _ h2)

theorem gapLoop_dict_untouched (ns : List Nat) (s : ProbeState) (missing : List Nat)
    (k : Nat) (hk : k ∉ ns) (dflt : Bool) :
    dictGet (gapLoop s ns missing).1.dict k dflt = dictGet s.dict k dflt := by
  induction ns generalizing s missing with
  | nil => rfl
  | cons n rest ih =>
    rw [gapLoop]
    have hkr : k ∉ rest := fun hc => hk (List.mem_cons_of_mem _ hc)
    have hkn : n ≠ k := fun hc => hk (by simp [hc])
    rw [ih _ _ hkr]
    simp only [gapStep]
    by_cases hb : playableResult (s.oracle s.calls) = true
    · simp only [hb, if_true]
      exact dictGet_dictSet_ne _ _ _ _ _ hkn
    · simp only [Bool.not_eq_true] at hb
      simp only [hb, Bool.false_eq_true, if_false]

/-- A note recorded as missing by the gap loop was not marked playable by
it: its dict entry is whatever it was before the loop. -/
theorem gapLoop_missing_dict_unchanged (ns : List Nat) (s : ProbeState)
    (missing : List Nat) (hnd : ns.Nodup) (k : Nat)
    (hk : k ∈ (gapLoop s ns missing).2) (hkm : k ∉ missing) :
    dictGet (gapLoop s ns missing).1.dict k false = dictGet s.dict k false := by
  induction ns generalizing s missing with
  | nil => exact absurd hk hkm
  | cons n rest ih =>
    rw [List.nodup_cons] at hnd
    rw [gapLoop] at hk ⊢
    by_cases hb : playableResult (s.oracle s.calls) = true
    · -- success: missing unchanged, dict gains (n, true)
      have hmiss : (gapStep s n missing).2 = missing := by simp [gapStep, hb]
      have hk2 : k ∈ rest := by
        rcases gapLoop_missing_sub _ _ _ _ hk with h2 | h2
        · rw [hmiss] at h2; exact absurd h2 hkm
        · exact h2
      have hkn : n ≠ k := fun hc => hnd.1 (hc ▸ hk2)
      rw [ih _ _ hnd.2 hk (by rw [hmiss]; exact hkm)]
      simp only [gapStep, hb, if_true]
      exact dictGet_dictSet_ne _ _ _ _ _ hkn
    · simp only [Bool.not_eq_true] at hb
      have hdict : (gapStep s n missing).1.dict = s.dict := by
        simp [gapStep, hb]
      by_cases hkn : k = n
      · subst hkn
        rw [gapLoop_dict_untouched _ _ _ _ hnd.1, hdict]
      · have hkm2 : k ∉ (gapStep s n missing).2 := by
          simp only [gapStep, hb, Bool.false_eq_true, if_false,
            List.mem_append, List.mem_singleton]
          intro hc
          rcases hc with hc | hc
          · exact hkm hc
          · exact hkn hc
        rw [ih _ _ hnd.2 hk hkm2, hdict]

/-! ### Helper lemmas: phases 1-2 composed -/

theorem testLoop_dict_inv (ns : List Nat) (s : ProbeState)
    (h : ∀ e ∈ s.dict, ∃ r, ((e : Nat × Bool).1, r, e.2) ∈ s.trace) :
    ∀ e ∈ (testLoop s ns).dict, ∃ r, ((e : Nat × Bool).1, r, e.2) ∈ (testLoop s ns).trace := by
  intro e he
  rcases testLoop_dict_from_trace ns s e he with h2 | h2
  · rcases h e h2 with ⟨r, hr⟩
    exact ⟨r, testLoop_trace_mono _ _ _ hr⟩
  · exact h2

theorem phase2low_keysNodup (s : ProbeState) (h : KeysNodup s.dict) :
    KeysNodup (phase2low s).dict := by
  unfold phase2low
  by_cases hc : dictGet s.dict 24 false = true
  · rw [if_pos hc]; exact testLoop_keysNodup _ _ h
  · rw [if_neg hc]; exact h

theorem phase2high_keysNodup (s : ProbeState) (h : KeysNodup s.dict) :
    KeysNodup (phase2high s).dict := by
  unfold phase2high
  by_cases hc : dictGet s.dict 96 false = true
  · rw [if_pos hc]; exact testLoop_keysNodup _ _ h
  · rw [if_neg hc]; exact h

theorem phase12_keysNodup (oracle : Oracle) : KeysNodup (phase12 oracle).dict := by
  unfold phase12
  refine phase2high_keysNodup _ (phase2low_keysNodup _ ?_)
  unfold phase1
  exact testLoop_keysNodup _ _ (by simp [KeysNodup])

theorem phase2low_dict_inv (s : ProbeState)
    (h : ∀ e ∈ s.dict, ∃ r, ((e : Nat × Bool).1, r, e.2) ∈ s.trace) :
    ∀ e ∈ (phase2low s).dict, ∃ r, ((e : Nat × Bool).1, r, e.2) ∈ (phase2low s).trace := by
  unfold phase2low
  by_cases hc : dictGet s.dict 24 false = true
  · rw [if_pos hc]; exact testLoop_dict_inv _ _ h
  · rw [if_neg hc]; exact h

theorem phase2high_dict_inv (s : ProbeState)
    (h : ∀ e ∈ s.dict, ∃ r, ((e : Nat × Bool).1, r, e.2) ∈ s.trace) :
    ∀ e ∈ (phase2high s).dict, ∃ r, ((e : Nat × Bool).1, r, e.2) ∈ (phase2high s).trace := by
  unfold phase2high
  by_cases hc : dictGet s.dict 96 false = true
  · rw [if_pos hc]; exact testLoop_dict_inv _ _ h
  · rw [if_neg hc]; exact h

theorem phase12_dict_inv (oracle : Oracle) :
    ∀ e ∈ (phase12 oracle).dict, ∃ r, ((e : Nat × Bool).1, r, e.2) ∈ (phase12 oracle).trace := by
  unfold phase12
  refine phase2high_dict_inv _ (phase2low_dict_inv _ ?_)
  unfold phase1
  exact testLoop_dict_inv _ _ (by intro e he; cases he)

/-! ### Helper lemmas: the full run -/

theorem probeRun_eq_fallback (oracle : Oracle)
    (h : playableOf (phase12 oracle).dict = []) :
    probeRun oracle =
      { result := ("C4", "C4", [])
        anyPlayable := false
        tentPlayable := []
        tentMin := none
        tentMax := none
        stride := none
        grid := []
        minMidi := none
        maxMidi := none
        missingMidi := []
        finalPlayable := []
        trace12 := (phase12 oracle).trace
        traceGap := []
        tempDirRemoved := false } := by
  simp only [probeRun]
  rw [if_pos h]

theorem probeRun_eq_main (oracle : Oracle)
    (h : playableOf (phase12 oracle).dict ≠ []) :
    probeRun oracle = probeMain (phase12 oracle) (playableOf (phase12 oracle).dict) := by
  simp only [probeRun]
  rw [if_neg h]

theorem probeRun_trace12 (oracle : Oracle) :
    (probeRun oracle).trace12 = (phase12 oracle).trace := by
  by_cases h : playableOf (phase12 oracle).dict = []
  · rw [probeRun_eq_fallback oracle h]
  · rw [probeRun_eq_main oracle h]; rfl

theorem probeRun_anyPlayable (oracle : Oracle) :
    (probeRun oracle).anyPlayable = true ↔ playableOf (phase12 oracle).dict ≠ [] := by
  by_cases h : playableOf (phase12 oracle).dict = []
  · rw [probeRun_eq_fallback oracle h]
    simp [h]
  · rw [probeRun_eq_main oracle h]
    simp [h, probeMain]

/-! Field equations of `probeMain`, naming the quantities the source
computes in its main branch. -/

theorem probeMain_tentPlayable (s : ProbeState) (pl : List Nat) :
    (probeMain s pl).tentPlayable = pl := rfl

theorem probeMain_tentMin (s : ProbeState) (pl : List Nat) :
    (probeMain s pl).tentMin = some (minList pl) := rfl

theorem probeMain_tentMax (s : ProbeState) (pl : List Nat) :
    (probeMain s pl).tentMax = some (maxList pl) := rfl

theorem probeMain_stride (s : ProbeState) (pl : List Nat) :
    (probeMain s pl).stride
      = some (if maxList pl - minList pl > 24 then 3 else 1) := rfl

theorem probeMain_grid (s : ProbeState) (pl : List Nat) :
    (probeMain s pl).grid
      = (pyRange (minList pl) (maxList pl + 1)
            (if maxList pl - minList pl > 24 then 3 else 1)).filter
          (fun n => decide (n ∉ pl)) := rfl

theorem probeMain_traceGap (s : ProbeState) (pl : List Nat) :
    (probeMain s pl).traceGap
      = (gapLoop { s with trace := [] } (probeMain s pl).grid []).1.trace := rfl

theorem probeMain_missingMidi (s : ProbeState) (pl : List Nat) :
    (probeMain s pl).missingMidi
      = (gapLoop { s with trace := [] } (probeMain s pl).grid []).2 := rfl

theorem probeMain_finalPlayable (s : ProbeState) (pl : List Nat) :
    (probeMain s pl).finalPlayable
      = playableOf (gapLoop { s with trace := [] } (probeMain s pl).grid []).1.dict := rfl

theorem probeMain_minMidi (s : ProbeState) (pl : List Nat) :
    (probeMain s pl).minMidi
      = some (minList (probeMain s pl).finalPlayable) := rfl

theorem probeMain_maxMidi (s : ProbeState) (pl : List Nat) :
    (probeMain s pl).maxMidi
      = some (maxList (probeMain s pl).finalPlayable) := rfl

theorem probeMain_result (s : ProbeState) (pl : List Nat) :
    (probeMain s pl).result
      = (midiToNote (minList (probeMain s pl).finalPlayable),
         midiToNote (maxList (probeMain s pl).finalPlayable),
         (sortNat (probeMain s pl).missingMidi).map (fun n => midiToNote n)) := rfl

theorem probeMain_tempDirRemoved (s : ProbeState) (pl : List Nat) :
    (probeMain s pl).tempDirRemoved = false := rfl

/-- Unfolds the playability conjunction of lines 1118-1128: render
success AND output file present with size over 100 bytes AND not silent. -/
theorem playableResult_true_iff (r : RenderResult) :
    playableResult r = true ↔
      (r.success = true ∧ (∃ n, r.wavSize = some n ∧ 100 < n)
        ∧ is_silent_wav r.wav (1 / 100) = false) := by
  unfold playableResult
  rcases hs : r.wavSize with _ | n <;>
    simp [hs, Bool.and_eq_true, Bool.not_eq_true', and_assoc]

theorem testLoop_trace_classified (ns : List Nat) (s : ProbeState)
    (h : ∀ e ∈ s.trace, (e : Nat × RenderResult × Bool).2.2 = playableResult e.2.1) :
    ∀ e ∈ (testLoop s ns).trace, (e : Nat × RenderResult × Bool).2.2 = playableResult e.2.1 := by
  induction ns generalizing s with
  | nil => exact h
  | cons n rest ih =>
    rw [testLoop]
    refine ih _ ?_
    intro e he
    simp only [testStep, List.mem_append, List.mem_singleton] at he
    rcases he with he | he
    · exact h e he
    · rw [he]

theorem phase12_trace_classified (oracle : Oracle) :
    ∀ e ∈ (phase12 oracle).trace,
      (e : Nat × RenderResult × Bool).2.2 = playableResult e.2.1 := by
  have h1 : ∀ e ∈ (phase1 oracle).trace,
      (e : Nat × RenderResult × Bool).2.2 = playableResult e.2.1 := by
    unfold phase1
    exact testLoop_trace_classified _ _ (by intro e he; cases he)
  have h2 : ∀ e ∈ (phase2low (phase1 oracle)).trace,
      (e : Nat × RenderResult × Bool).2.2 = playableResult e.2.1 := by
    unfold phase2low
    by_cases hc : dictGet (phase1 oracle).dict 24 false = true
    · rw [if_pos hc]; exact testLoop_trace_classified _ _ h1
    · rw [if_neg hc]; exact h1
  unfold phase12 phase2high
  by_cases hc : dictGet (phase2low (phase1 oracle)).dict 96 false = true
  · rw [if_pos hc]; exact testLoop_trace_classified _ _ h2
  · rw [if_neg hc]; exact h2

/-- C1: the probe tests exactly the seed notes {24,36,48,60,72,84,96}, in
that order; it then tests the low-extension notes {12,16,19,21} iff note
24 (first call, index 0) was classified playable, and the high-extension
notes {100,103,108} iff note 96 (seventh call, index 6) was classified
playable; every note is classified playable iff its render succeeded AND
the output file exists with size over 100 bytes AND the rendered
waveform is not silent. -/
theorem C1_seed_and_extension_notes (oracle : Oracle) :
    (phase12 oracle).trace.map (fun e => e.1)
      = seedNotes
        ++ (if playableResult (oracle 0) then lowExtNotes else [])
        ++ (if playableResult (oracle 6) then highExtNotes else [])
    ∧ ∀ e ∈ (phase12 oracle).trace,
        ((e : Nat × RenderResult × Bool).2.2 = true ↔
          (e.2.1.success = true ∧ (∃ n, e.2.1.wavSize = some n ∧ 100 < n)
            ∧ is_silent_wav e.2.1.wav (1 / 100) = false)) := by
  refine ⟨?_, ?_⟩
  · cases hb0 : playableResult (oracle 0) <;> cases hb6 : playableResult (oracle 6) <;>
      simp [phase12, phase1, phase2low, phase2high, testLoop, testStep, seedNotes,
        lowExtNotes, highExtNotes, dictSet, dictGet, hb0, hb6]
  · intro e he
    rw [phase12_trace_classified oracle e he]
    exact playableResult_true_iff _

/-- Witness for C1 at a fully playable soundfont: all three ladders are
tested and the first entry's classification matches the conjunction. -/
theorem C1_seed_and_extension_notes_witness :
    ((phase12 allPlayOracle).trace.map (fun e => e.1)
        = seedNotes ++ lowExtNotes ++ highExtNotes)
    ∧ (((24, allPlayOracle 0, true) : Nat × RenderResult × Bool).2.2 = true ↔
        ((allPlayOracle 0).success = true
          ∧ (∃ n, (allPlayOracle 0).wavSize = some n ∧ 100 < n)
          ∧ is_silent_wav (allPlayOracle 0).wav (1 / 100) = false)) := by
  have h := C1_seed_and_extension_notes allPlayOracle
  have hp0 : playableResult (allPlayOracle 0) = true := by decide
  have hp6 : playableResult (allPlayOracle 6) = true := by decide
  refine ⟨?_, h.2 (24, allPlayOracle 0, true) ?_⟩
  · have h1 := h.1
    rw [hp0, hp6] at h1
    simpa using h1
  · show (24, allPlayOracle 0, true) ∈ (phase12 allPlayOracle).trace
    decide

/-- C2: when some note was playable, the sampling stride over the
tentative span [lo, hi] is 1 if the span is at most 24 semitones and 3
otherwise; the gap phase tests exactly the stride-grid notes inside the
span that were not already confirmed playable, in order; and every
tested note that fails is recorded in the missing list. -/
theorem C2_gap_sampling (oracle : Oracle)
    (h : (probeRun oracle).anyPlayable = true) :
    ∃ lo hi,
      (probeRun oracle).tentMin = some lo
      ∧ (probeRun oracle).tentMax = some hi
      ∧ (probeRun oracle).stride = some (if hi - lo ≤ 24 then 1 else 3)
      ∧ (probeRun oracle).grid
          = (pyRange lo (hi + 1) (if hi - lo ≤ 24 then 1 else 3)).filter
              (fun n => decide (n ∉ (probeRun oracle).tentPlayable))
      ∧ (probeRun oracle).traceGap.map (fun e => e.1) = (probeRun oracle).grid
      ∧ ∀ e ∈ (probeRun oracle).traceGap,
          (e : Nat × RenderResult × Bool).2.2 = false →
            e.1 ∈ (probeRun oracle).missingMidi := by
  have hne : playableOf (phase12 oracle).dict ≠ [] := (probeRun_anyPlayable oracle).mp h
  rw [probeRun_eq_main oracle hne]
  set pl := playableOf (phase12 oracle).dict with hplDef
  have hEq : (if maxList pl - minList pl > 24 then 3 else 1)
      = (if maxList pl - minList pl ≤ 24 then 1 else 3) := by
    split_ifs <;> omega
  refine ⟨minList pl, maxList pl, probeMain_tentMin _ _, probeMain_tentMax _ _,
    ?_, ?_, ?_, ?_⟩
  · rw [probeMain_stride, hEq]
  · rw [probeMain_grid, probeMain_tentPlayable, hEq]
  · rw [probeMain_traceGap, gapLoop_trace_notes]
    rfl
  · intro e he hfail
    rw [probeMain_traceGap] at he
    rw [probeMain_missingMidi]
    rcases gapLoop_fail_mem_missing _ _ _ e he with h2 | h2
    · cases h2
    · exact h2 hfail

/-- Witness for C2 at a fully playable soundfont. -/
theorem C2_gap_sampling_witness :
    ∃ lo hi,
      (probeRun allPlayOracle).tentMin = some lo
      ∧ (probeRun allPlayOracle).tentMax = some hi
      ∧ (probeRun allPlayOracle).stride = some (if hi - lo ≤ 24 then 1 else 3)
      ∧ (probeRun allPlayOracle).grid
          = (pyRange lo (hi + 1) (if hi - lo ≤ 24 then 1 else 3)).filter
              (fun n => decide (n ∉ (probeRun allPlayOracle).tentPlayable))
      ∧ (probeRun allPlayOracle).traceGap.map (fun e => e.1) = (probeRun allPlayOracle).grid
      ∧ ∀ e ∈ (probeRun allPlayOracle).traceGap,
          (e : Nat × RenderResult × Bool).2.2 = false →
            e.1 ∈ (probeRun allPlayOracle).missingMidi :=
  C2_gap_sampling allPlayOracle (by decide)

/-- Invariants of the gap phase, stated over its pieces: the final min
and max equal the tentative ones, the span is well ordered, the missing
notes stay inside the span, and no note is both playable and missing. -/
theorem gapPhase_invariants (s : ProbeState) (pl : List Nat) (step : Nat)
    (grid : List Nat)
    (hnd : KeysNodup s.dict) (hpl : pl = playableOf s.dict) (hne : pl ≠ [])
    (hstep : 1 ≤ step)
    (hgrid : grid = (pyRange (minList pl) (maxList pl + 1) step).filter
        (fun n => decide (n ∉ pl))) :
    minList (playableOf (gapLoop { s with trace := [] } grid []).1.dict) = minList pl
    ∧ maxList (playableOf (gapLoop { s with trace := [] } grid []).1.dict) = maxList pl
    ∧ minList pl ≤ maxList pl
    ∧ (∀ n ∈ (gapLoop { s with trace := [] } grid []).2,
        minList pl ≤ n ∧ n ≤ maxList pl)
    ∧ ∀ n ∈ playableOf (gapLoop { s with trace := [] } grid []).1.dict,
        n ∉ (gapLoop { s with trace := [] } grid []).2 := by
  have hs0dict : ({ s with trace := [] } : ProbeState).dict = s.dict := rfl
  have hndG : KeysNodup (gapLoop { s with trace := [] } grid []).1.dict :=
    gapLoop_keysNodup _ _ _ hnd
  have hmemPl : ∀ n, n ∈ pl ↔ dictGet s.dict n false = true := by
    intro n
    rw [hpl]
    exact mem_playableOf_dictGet _ _ hnd
  have hmemG : ∀ n, n ∈ playableOf (gapLoop { s with trace := [] } grid []).1.dict
      ↔ dictGet (gapLoop { s with trace := [] } grid []).1.dict n false = true := by
    intro n
    exact mem_playableOf_dictGet _ _ hndG
  have hgridBounds : ∀ n ∈ grid, minList pl ≤ n ∧ n ≤ maxList pl := by
    intro n hn
    rw [hgrid] at hn
    have h2 := mem_pyRange _ _ _ _ hstep (List.mem_of_mem_filter hn)
    omega
  have hgridNotPl : ∀ n ∈ grid, n ∉ pl := by
    intro n hn
    rw [hgrid] at hn
    have h2 := List.of_mem_filter hn
    simpa using h2
  have hgridNodup : grid.Nodup := by
    rw [hgrid]
    exact (pyRange_nodup _ _ _ hstep).filter _
  -- the tentative extremes stay playable
  have hplSub : ∀ n ∈ pl, n ∈ playableOf (gapLoop { s with trace := [] } grid []).1.dict := by
    intro n hn
    rw [hmemG]
    exact gapLoop_dict_true_mono _ _ _ _ ((hmemPl n).mp hn)
  -- every finally playable note lies in the tentative span
  have hGBounds : ∀ n ∈ playableOf (gapLoop { s with trace := [] } grid []).1.dict,
      minList pl ≤ n ∧ n ≤ maxList pl := by
    intro n hn
    rcases gapLoop_dict_true_sub _ _ _ _ ((hmemG n).mp hn) with h2 | h2
    · have h3 : n ∈ pl := (hmemPl n).mpr h2
      exact ⟨minList_le _ _ h3, le_maxList _ _ h3⟩
    · exact hgridBounds n h2
  have hloMem : minList pl ∈ pl := minList_mem pl hne
  have hhiMem : maxList pl ∈ pl := maxList_mem pl hne
  refine ⟨?_, ?_, minList_le _ _ hhiMem, ?_, ?_⟩
  · exact minList_eq_of_mem_of_le _ _ (hplSub _ hloMem)
      (fun x hx => (hGBounds x hx).1)
  · exact maxList_eq_of_mem_of_le _ _ (hplSub _ hhiMem)
      (fun x hx => (hGBounds x hx).2)
  · intro n hn
    rcases gapLoop_missing_sub _ _ _ _ hn with h2 | h2
    · cases h2
    · exact hgridBounds n h2
  · intro n hn hnm
    have h2 : n ∈ grid := by
      rcases gapLoop_missing_sub _ _ _ _ hnm with h3 | h3
      · cases h3
      · exact h3
    have h3 : dictGet (gapLoop { s with trace := [] } grid []).1.dict n false
        = dictGet s.dict n false := by
      have := gapLoop_missing_dict_unchanged grid { s with trace := [] } []
        hgridNodup n hnm (by simp)
      exact this
    have h4 : dictGet s.dict n false = true := by
      rw [← h3]
      exact (hmemG n).mp hn
    exact hgridNotPl n h2 ((hmemPl n).mpr h4)

/-- C3: whenever at least one note is playable, the reported span is well
ordered, every missing note lies inside it, and no note is both
classified playable and recorded missing. -/
theorem C3_result_invariants (oracle : Oracle)
    (h : (probeRun oracle).anyPlayable = true) :
    ∃ lo hi,
      (probeRun oracle).minMidi = some lo
      ∧ (probeRun oracle).maxMidi = some hi
      ∧ lo ≤ hi
      ∧ (∀ n ∈ (probeRun oracle).missingMidi, lo ≤ n ∧ n ≤ hi)
      ∧ ∀ n ∈ (probeRun oracle).finalPlayable, n ∉ (probeRun oracle).missingMidi := by
  have hne : playableOf (phase12 oracle).dict ≠ [] := (probeRun_anyPlayable oracle).mp h
  rw [probeRun_eq_main oracle hne]
  set pl := playableOf (phase12 oracle).dict with hplDef
  have hstep : 1 ≤ (if maxList pl - minList pl > 24 then 3 else 1) := by
    split_ifs <;> omega
  obtain ⟨h1, h2, h3, h4, h5⟩ := gapPhase_invariants (phase12 oracle) pl
    (if maxList pl - minList pl > 24 then 3 else 1)
    ((pyRange (minList pl) (maxList pl + 1)
        (if maxList pl - minList pl > 24 then 3 else 1)).filter
      (fun n => decide (n ∉ pl)))
    (phase12_keysNodup oracle) hplDef hne hstep rfl
  refine ⟨minList pl, maxList pl, ?_, ?_, h3, ?_, ?_⟩
  · rw [probeMain_minMidi, probeMain_finalPlayable, probeMain_grid, h1]
  · rw [probeMain_maxMidi, probeMain_finalPlayable, probeMain_grid, h2]
  · intro n hn
    rw [probeMain_missingMidi, probeMain_grid] at hn
    exact h4 n hn
  · intro n hn
    rw [probeMain_finalPlayable, probeMain_grid] at hn
    rw [probeMain_missingMidi, probeMain_grid]
    exact h5 n hn

/-- Witness for C3 at a run with one silent note (MIDI 36) inside a wide
playable span. -/
theorem C3_result_invariants_witness :
    ∃ lo hi,
      (probeRun gapOracle).minMidi = some lo
      ∧ (probeRun gapOracle).maxMidi = some hi
      ∧ lo ≤ hi
      ∧ (∀ n ∈ (probeRun gapOracle).missingMidi, lo ≤ n ∧ n ≤ hi)
      ∧ ∀ n ∈ (probeRun gapOracle).finalPlayable, n ∉ (probeRun gapOracle).missingMidi :=
  C3_result_invariants gapOracle (by decide)

/-! ### The degenerate fallback and the dead cleanup code -/

theorem playableOf_nil_of_all_false (d : Dict)
    (h : ∀ e ∈ d, (e : Nat × Bool).2 = false) : playableOf d = [] := by
  unfold playableOf
  have h2 : d.filter (fun e => e.2) = [] := by
    rw [List.filter_eq_nil_iff]
    intro e he
    rw [h e he]
    simp
  rw [h2]
  rfl

/-- C8: if every note tested in phases 1-2 is classified not playable,
the probe returns the hardcoded degenerate single-note result
("C4", "C4", []) without raising, and the gap phase never runs. -/
theorem C8_degenerate_fallback (oracle : Oracle)
    (h : ∀ e ∈ (probeRun oracle).trace12, (e : Nat × RenderResult × Bool).2.2 = false) :
    test_note_range oracle = ("C4", "C4", [])
    ∧ (probeRun oracle).traceGap = [] := by
  have hdict : ∀ e ∈ (phase12 oracle).dict, (e : Nat × Bool).2 = false := by
    intro e he
    rcases phase12_dict_inv oracle e he with ⟨r, hr⟩
    exact h (e.1, r, e.2) (by rw [probeRun_trace12]; exact hr)
  have hpl : playableOf (phase12 oracle).dict = [] :=
    playableOf_nil_of_all_false _ hdict
  constructor
  · rw [test_note_range, probeRun_eq_fallback oracle hpl]
  · rw [probeRun_eq_fallback oracle hpl]

/-- Witness for C8: every render fails, so the probe returns the default
single note C4. -/
theorem C8_degenerate_fallback_witness :
    test_note_range allFailOracle = ("C4", "C4", [])
    ∧ (probeRun allFailOracle).traceGap = [] :=
  C8_degenerate_fallback allFailOracle (by decide)

/-- C9 (documents the code bug): the cleanup of the temporary directory
at the end of `test_note_range` (lines 1236-1239) sits after the
`return` statements at lines 1231 and 1234, so it is unreachable: on
every run, with no caller-supplied output directory, the temporary MIDI
and WAV files and their directory are never removed, although the code's
own trailing comment announces the cleanup. -/
theorem C9_tempdir_never_removed (oracle : Oracle) :
    (probeRun oracle).tempDirRemoved = false := by
  by_cases hpl : playableOf (phase12 oracle).dict = []
  · rw [probeRun_eq_fallback oracle hpl]
  · rw [probeRun_eq_main oracle hpl]
    exact probeMain_tempDirRemoved _ _

/-! ### Renderer-unavailable behaviour (C4) -/

theorem playableResult_false_of_failure (r : RenderResult)
    (h : r.success = false) : playableResult r = false := by
  unfold playableResult
  rw [h]
  rfl

theorem testLoop_dict_false (ns : List Nat) (s : ProbeState)
    (hor : ∀ k, (s.oracle k).success = false)
    (h : ∀ e ∈ s.dict, (e : Nat × Bool).2 = false) :
    ∀ e ∈ (testLoop s ns).dict, (e : Nat × Bool).2 = false := by
  induction ns generalizing s with
  | nil => exact h
  | cons n rest ih =>
    rw [testLoop]
    refine ih _ hor ?_
    intro e he
    rcases mem_dictSet _ _ _ _ he with h2 | h2
    · exact h e h2
    · rw [h2]
      exact playableResult_false_of_failure _ (hor s.calls)

theorem phase12_dict_false (oracle : Oracle)
    (hor : ∀ k, (oracle k).success = false) :
    ∀ e ∈ (phase12 oracle).dict, (e : Nat × Bool).2 = false := by
  have h1 : ∀ e ∈ (phase1 oracle).dict, (e : Nat × Bool).2 = false := by
    unfold phase1
    exact testLoop_dict_false _ _ hor (by intro e he; cases he)
  have hor1 : ∀ k, ((phase1 oracle).oracle k).success = false := by
    unfold phase1
    rw [testLoop_oracle]
    exact hor
  have h2 : ∀ e ∈ (phase2low (phase1 oracle)).dict, (e : Nat × Bool).2 = false := by
    unfold phase2low
    by_cases hc : dictGet (phase1 oracle).dict 24 false = true
    · rw [if_pos hc]; exact testLoop_dict_false _ _ hor1 h1
    · rw [if_neg hc]; exact h1
  have hor2 : ∀ k, ((phase2low (phase1 oracle)).oracle k).success = false := by
    unfold phase2low
    by_cases hc : dictGet (phase1 oracle).dict 24 false = true
    · rw [if_pos hc, testLoop_oracle]; exact hor1
    · rw [if_neg hc]; exact hor1
  unfold phase12 phase2high
  by_cases hc : dictGet (phase2low (phase1 oracle)).dict 96 false = true
  · rw [if_pos hc]; exact testLoop_dict_false _ _ hor2 h2
  · rw [if_neg hc]; exact h2

/-- Counterexample to C4 as stated: when the synthesizer binary cannot be
invoked at all, `test_soundfont` returns the ordinary failure value
`(False, None)` instead of raising — exactly the value a per-note render
failure produces — and `test_note_range` runs to completion and returns
the plain degenerate triple ("C4", "C4", []), identical to the outcome
for a soundfont none of whose notes plays.  No error is surfaced and no
outcome distinct from "note not playable" exists. -/
theorem C4_counterexample :
    test_soundfont envUnavailable = (false, none)
    ∧ test_soundfont envRenderFail = (false, none)
    ∧ test_note_range (oracleOfEnv envUnavailable) = ("C4", "C4", [])
    ∧ test_note_range (oracleOfEnv envUnavailable) = test_note_range allFailOracle :=
  ⟨by decide, by decide, by decide, by decide⟩

/-- C4 as amended: per-note failures are recorded as not playable and the
probe never aborts; a renderer-unavailable condition merely makes
`test_soundfont` report failure (`(False, None)`, no exception), so
every per-note render fails and the probe completes with the degenerate
fallback, indistinguishable from a soundfont with no playable notes. -/
theorem C4_renderer_unavailable_not_distinct (env : SysEnv) (oracle : Oracle)
    (henv : env.fsProbe = none) (hsf : env.sfExists = true)
    (hor : oracle = oracleOfEnv env) :
    test_soundfont env = (false, none)
    ∧ test_note_range oracle = ("C4", "C4", [])
    ∧ (probeRun oracle).anyPlayable = false := by
  have hts : test_soundfont env = (false, none) := by
    simp [test_soundfont, hsf, henv]
  have hor2 : ∀ k, (oracle k).success = false := by
    intro k
    rw [hor]
    simp [oracleOfEnv, run_fluidsynth_render, hts]
  have hpl : playableOf (phase12 oracle).dict = [] :=
    playableOf_nil_of_all_false _ (phase12_dict_false oracle hor2)
  refine ⟨hts, ?_, ?_⟩
  · rw [test_note_range, probeRun_eq_fallback oracle hpl]
  · rw [probeRun_eq_fallback oracle hpl]

/-- Witness for the amended C4 at the concrete unavailable-renderer
environment. -/
theorem C4_renderer_unavailable_not_distinct_witness :
    test_soundfont envUnavailable = (false, none)
    ∧ test_note_range (oracleOfEnv envUnavailable) = ("C4", "C4", [])
    ∧ (probeRun (oracleOfEnv envUnavailable)).anyPlayable = false :=
  C4_renderer_unavailable_not_distinct envUnavailable (oracleOfEnv envUnavailable)
    rfl rfl rfl

/-! ### Silence detector (C5) -/

/-- Counterexample to C5 as stated: the empty waveform (a WAV with zero
frames, loaded without error) is reported NOT silent: `np.mean` of an
empty array is NaN and `NaN < threshold` is false, so the function
returns `False` instead of the claimed `True`. -/
theorem C5_counterexample : is_silent_wav (some []) (1 / 100) = false := rfl

theorem is_silent_wav_some (y : List ℚ) (t : ℚ) :
    is_silent_wav (some y) t
      = (match meanSq y with
         | none => false
         | some m => decide (m < t ^ 2)) := rfl

/-- C5 as amended: a load failure is treated as silent; the EMPTY
waveform is reported not silent (NaN comparison); for every loadable
nonempty waveform the result is true iff the root-mean-square amplitude
`sqrt (meanSq y)` is strictly below the (positive) threshold — in
particular an RMS exactly equal to the threshold yields false — and
every all-zero nonempty waveform is silent. -/
theorem C5_silence_rms (t : ℚ) (ht : 0 < t) (y : List ℚ) :
    is_silent_wav none t = true
    ∧ is_silent_wav (some []) t = false
    ∧ (∀ m : ℚ, meanSq y = some m →
        (is_silent_wav (some y) t = true ↔ Real.sqrt (m : ℝ) < (t : ℝ)))
    ∧ (meanSq y = some (t ^ 2) → is_silent_wav (some y) t = false)
    ∧ ((∀ v ∈ y, v = 0) → y ≠ [] → is_silent_wav (some y) t = true) := by
  have htR : (0 : ℝ) < (t : ℝ) := by exact_mod_cast ht
  refine ⟨rfl, rfl, ?_, ?_, ?_⟩
  · intro m hm
    have h2 : is_silent_wav (some y) t = decide (m < t ^ 2) := by
      rw [is_silent_wav_some, hm]
    rw [h2, decide_eq_true_iff]
    constructor
    · intro h3
      rw [Real.sqrt_lt' htR]
      exact_mod_cast h3
    · intro h3
      rw [Real.sqrt_lt' htR] at h3
      exact_mod_cast h3
  · intro hm
    have h2 : is_silent_wav (some y) t = decide (t ^ 2 < t ^ 2) := by
      rw [is_silent_wav_some, hm]
    rw [h2]
    simp
  · intro hz hne
    have hlen : y.length ≠ 0 := fun hc => hne (List.length_eq_zero.mp hc)
    have hsum : (y.map (fun v => v ^ 2)).sum = 0 := by
      refine List.sum_eq_zero ?_
      intro x hx
      rcases List.mem_map.mp hx with ⟨v, hv, hvx⟩
      rw [← hvx, hz v hv]
      norm_num
    have hm : meanSq y = some 0 := by
      unfold meanSq
      rw [if_neg hlen, hsum]
      norm_num
    have h2 : is_silent_wav (some y) t = decide ((0 : ℚ) < t ^ 2) := by
      rw [is_silent_wav_some, hm]
    rw [h2, decide_eq_true_iff]
    positivity

/-- Witness for the amended C5: load failure silent, empty waveform not
silent, all-zero two-sample waveform silent. -/
theorem C5_silence_rms_witness :
    is_silent_wav none (1 / 100) = true
    ∧ is_silent_wav (some []) (1 / 100) = false
    ∧ is_silent_wav (some [0, 0]) (1 / 100) = true := by
  have h := C5_silence_rms (1 / 100) (by norm_num) [0, 0]
  refine ⟨h.1, h.2.1, h.2.2.2.2 ?_ (by simp)⟩
  intro v hv
  rcases List.mem_cons.mp hv with h2 | h2
  · exact h2
  · simpa using h2

/-! ### Timbre classifier default (C6) -/

/-- C6: whenever the render fails, the waveform cannot be loaded, or the
loaded waveform is empty or all-zero, `analyze_timbre` returns — without
raising — exactly the neutral default profile: all three "medium"
categories, harmonic quality "balanced" (the second of its four tiers),
all numeric spectral fields 0, and thirteen zero MFCC coefficients. -/
theorem C6_default_profile (env : TimbreEnv)
    (h : env.renderOk = false ∨ env.waveform = none ∨ env.waveform = some []
      ∨ ∃ y, env.waveform = some y ∧ ∀ v ∈ y, v = 0) :
    analyze_timbre env = default_timbre
    ∧ default_timbre.brightness = "medium"
    ∧ default_timbre.richness = "medium"
    ∧ default_timbre.attack = "medium"
    ∧ default_timbre.harmonic_quality = "balanced"
    ∧ default_timbre.spectral_centroid = 0
    ∧ default_timbre.spectral_bandwidth = 0
    ∧ default_timbre.spectral_rolloff = 0
    ∧ default_timbre.zero_crossing_rate = 0
    ∧ default_timbre.mfcc_features = List.replicate 13 0 := by
  refine ⟨?_, rfl, rfl, rfl, rfl, rfl, rfl, rfl, rfl, rfl⟩
  rcases hb : env.renderOk with _ | _
  · simp [analyze_timbre, hb]
  · rcases h with h | h | h | ⟨y, hy, hz⟩
    · rw [hb] at h; cases h
    · simp [analyze_timbre, hb, h]
    · simp [analyze_timbre, hb, h]
    · have hall : y.all (fun v => v == 0) = true := by
        rw [List.all_eq_true]
        intro v hv
        rw [beq_iff_eq]
        exact hz v hv
      simp [analyze_timbre, hb, hy, hall]

/-- Witness for C6 at a forced render failure. -/
theorem C6_default_profile_witness :
    analyze_timbre ⟨false, none, 0, 0, 0, 0, 0, []⟩ = default_timbre
    ∧ default_timbre.brightness = "medium"
    ∧ default_timbre.richness = "medium"
    ∧ default_timbre.attack = "medium"
    ∧ default_timbre.harmonic_quality = "balanced"
    ∧ default_timbre.spectral_centroid = 0
    ∧ default_timbre.spectral_bandwidth = 0
    ∧ default_timbre.spectral_rolloff = 0
    ∧ default_timbre.zero_crossing_rate = 0
    ∧ default_timbre.mfcc_features = List.replicate 13 0 :=
  C6_default_profile ⟨false, none, 0, 0, 0, 0, 0, []⟩ (Or.inl rfl)

/-! ### Quality heuristic (C7, C10) -/

/-- C7: `suggest_quality` computes the sum of the four 0/1/2 factor
scores and buckets `sum / 8` against 0.7 and 0.4, exactly as the spec's
scoring rule states; the spec's two worked examples evaluate to "high"
and "low". -/
theorem C7_quality_scoring (size sr bd : ℚ) (missing : List String) :
    suggest_quality
        { size_mb := some size, sample_rate := some sr, bit_depth := some bd,
          mapped_notes := some (MappedNotesVal.dict (some missing)) }
      = suggest_quality_spec size sr bd missing.length
    ∧ suggest_quality_spec 35 44100 16 2 = "high"
    ∧ suggest_quality_spec 5 22050 16 25 = "low" := by
  refine ⟨rfl, ?_, ?_⟩
  · norm_num [suggest_quality_spec]
  · norm_num [suggest_quality_spec]

/-- C10: an absent `mapped_notes` key, or a dict without a
`missing_notes` entry, counts as zero missing notes and scores the
maximal 2 coverage points; a non-dict `mapped_notes` value scores 0; an
entirely empty metadata dict therefore scores 2 of 8 and is rated
"low". -/
theorem C10_coverage_defaults :
    coverageFactor none = 2
    ∧ coverageFactor (some (MappedNotesVal.dict none)) = 2
    ∧ coverageFactor (some MappedNotesVal.nonDict) = 0
    ∧ totalScore ⟨none, none, none, none⟩ = 2
    ∧ suggest_quality ⟨none, none, none, none⟩ = "low" := by
  refine ⟨?_, ?_, ?_, ?_, ?_⟩ <;>
    norm_num [coverageFactor, totalScore, sizeFactor, sampleRateFactor,
      bitDepthFactor, suggest_quality]

end SoundfontManager
